import Mathlib

/-!
Verification of the lid-driven-cavity artificial-compressibility solver
(`workshop3/C_expanded/src/lidCavity.c`).

Grids are embedded as total functions `ℕ → ℕ → ℚ`; each C update loop
becomes a function that rewrites exactly the index range the loop visits
and leaves every other cell at the value held by the destination buffer.
The bodies of `set_UBC`, `set_PBC`, `array_2d` and `fmaxof` live in
`functions.h`, which is not part of the repository snapshot; they are
modelled from the specification and marked as such.  The solver loop is
embedded as a fuel-bounded recursion over an abstract per-iteration
residual stream, which captures the control flow of `main`'s do-while
loop (divergence check, residual log line, pointer swap, iteration cap).
-/

namespace LidCavity

/-- Grid extent in x (`#define IX 128`). -/
def IXc : ℕ := 128

/-- Grid extent in y (`#define IY 128`). -/
def IYc : ℕ := 128

/-- First interior node (`const int xlo = 1`). -/
def xlo : ℕ := 1

/-- Last interior node bound in x (`const int xhi = IX - 1`). -/
def xhi : ℕ := IXc - 1

/-- Total x extent (`const int xtot = IX + 1`). -/
def xtot : ℕ := IXc + 1

/-- First interior node in y (`const int ylo = 1`). -/
def ylo : ℕ := 1

/-- Last interior node bound in y (`const int yhi = IY - 1`). -/
def yhi : ℕ := IYc - 1

/-- Total y extent (`const int ytot = IY + 1`). -/
def ytot : ℕ := IYc + 1

/-- Convergence tolerance (`const double tol = 1.0e-7`). -/
def tol : ℚ := 1 / 10000000

/-- Iteration hard cap (`int itr_max = 1000000`). -/
def itrMax : ℕ := 1000000

/-- A 2D field buffer, embedded as a total function on indices. -/
abbrev Grid := ℕ → ℕ → ℚ

/-- Simulation parameters fixed before the loop (`dx, dy, dt, nu, c2`). -/
structure Params where
  dx : ℚ
  dy : ℚ
  dt : ℚ
  nu : ℚ
  c2 : ℚ

/-- Precomputed ratio `dtdx = dt / dx` (line 93). -/
def dtdx (P : Params) : ℚ := P.dt / P.dx

/-- Precomputed ratio `dtdy = dt / dy` (line 94). -/
def dtdy (P : Params) : ℚ := P.dt / P.dy

/-- Precomputed ratio `dtdxx = dt / (dx * dx)` (line 95). -/
def dtdxx (P : Params) : ℚ := P.dt / (P.dx * P.dx)

/-- Precomputed ratio `dtdyy = dt / (dy * dy)` (line 96). -/
def dtdyy (P : Params) : ℚ := P.dt / (P.dy * P.dy)

/-- Precomputed product `dtdxdy = dt * dx * dy` (line 97). -/
def dtdxdy (P : Params) : ℚ := P.dt * P.dx * P.dy

/-- Index range written by the u-momentum loop (lines 138-139):
`xlo <= i < xhi`, `ylo <= j < ytot - 1`. -/
def uInRange (i j : ℕ) : Prop :=
  xlo ≤ i ∧ i < xhi ∧ ylo ≤ j ∧ j < ytot - 1

instance (i j : ℕ) : Decidable (uInRange i j) := by
  unfold uInRange; infer_instance

/-- Index range written by the v-momentum loop (lines 155-156):
`xlo <= i < xtot - 1`, `ylo <= j < yhi`. -/
def vInRange (i j : ℕ) : Prop :=
  xlo ≤ i ∧ i < xtot - 1 ∧ ylo ≤ j ∧ j < yhi

instance (i j : ℕ) : Decidable (vInRange i j) := by
  unfold vInRange; infer_instance

/-- Index range written by the pressure loop (lines 174-175):
`xlo <= i < xtot - 1`, `ylo <= j < ytot - 1`. -/
def pInRange (i j : ℕ) : Prop :=
  xlo ≤ i ∧ i < xtot - 1 ∧ ylo ≤ j ∧ j < ytot - 1

instance (i j : ℕ) : Decidable (pInRange i j) := by
  unfold pInRange; infer_instance

/-- Right-hand side of the u-momentum update (lines 140-149). -/
def uFormula (P : Params) (u v p : Grid) (i j : ℕ) : ℚ :=
  u i j
    - 0.25 * dtdx P * ((u (i+1) j + u i j) ^ 2
                       - (u i j + u (i-1) j) ^ 2)
    - 0.25 * dtdy P * ((u i (j+1) + u i j)
                       * (v (i+1) j + v i j)
                       - (u i j + u i (j-1))
                       * (v (i+1) (j-1) + v i (j-1)))
    - dtdx P * (p (i+1) j - p i j)
    + P.nu * (dtdxx P * (u (i+1) j - 2 * u i j + u (i-1) j)
              + dtdyy P * (u i (j+1) - 2 * u i j + u i (j-1)))

/-- The u-momentum loop: writes `uFormula` into the loop's index range of
the next buffer `un`, leaving every other cell of `un` unchanged. -/
def uNext (P : Params) (u v p un : Grid) : Grid := fun i j =>
  if uInRange i j then uFormula P u v p i j else un i j

/-- Right-hand side of the v-momentum update (lines 157-166). -/
def vFormula (P : Params) (u v p : Grid) (i j : ℕ) : ℚ :=
  v i j
    - 0.25 * dtdx P * ((u i (j+1) + u i j)
                       * (v (i+1) j + v i j)
                       - (u (i-1) (j+1) + u (i-1) j)
                       * (v i j + v (i-1) j))
    - 0.25 * dtdy P * ((v i (j+1) + v i j) ^ 2
                       - (v i j + v i (j-1)) ^ 2)
    - dtdy P * (p i (j+1) - p i j)
    + P.nu * (dtdxx P * (v (i+1) j - 2 * v i j + v (i-1) j)
              + dtdyy P * (v i (j+1) - 2 * v i j + v i (j-1)))

/-- The v-momentum loop: writes `vFormula` into the loop's index range of
the next buffer `vn`, leaving every other cell of `vn` unchanged. -/
def vNext (P : Params) (u v p vn : Grid) : Grid := fun i j =>
  if vInRange i j then vFormula P u v p i j else vn i j

/-- Right-hand side of the pressure/continuity update (lines 176-177);
note that it reads the newly computed velocity buffers `un`/`vn`. -/
def pFormula (P : Params) (p un vn : Grid) (i j : ℕ) : ℚ :=
  p i j - P.c2 * ((un i j - un (i-1) j) * dtdx P
                  + (vn i j - vn i (j-1)) * dtdy P)

/-- The pressure loop: writes `pFormula` into the loop's index range of
the next buffer `pn`, leaving every other cell of `pn` unchanged. -/
def pNext (P : Params) (p un vn pn : Grid) : Grid := fun i j =>
  if pInRange i j then pFormula P p un vn i j else pn i j

/-- The six field buffers visible through the `u un v vn p pn` pointers. -/
structure FieldState where
  u : Grid
  un : Grid
  v : Grid
  vn : Grid
  p : Grid
  pn : Grid

/-- One pass of the step integrator: the three update loops of an
iteration, in program order (u-momentum, v-momentum, then pressure from
the newly computed `un`/`vn`).  Only the next buffers change. -/
def integrate (P : Params) (s : FieldState) : FieldState :=
  let un' := uNext P s.u s.v s.p s.un
  let vn' := vNext P s.u s.v s.p s.vn
  let pn' := pNext P s.p un' vn' s.pn
  { u := s.u, un := un', v := s.v, vn := vn', p := s.p, pn := pn' }

/-- Dirichlet boundary scalars `{top, left, bottom, right}` (lines 44-45). -/
structure BCVals where
  top : ℚ
  left : ℚ
  bottom : ℚ
  right : ℚ

/-- Boundary values of the reference run: `ubc[4] = {1.0, 0.0, 0.0, 0.0}`. -/
def ubcDefault : BCVals := ⟨1, 0, 0, 0⟩

/-- Boundary values of the reference run: `vbc[4] = {0.0, 0.0, 0.0, 0.0}`. -/
def vbcDefault : BCVals := ⟨0, 0, 0, 0⟩

/-- Modelled from the spec: the u-part of `set_UBC` (declared in
`functions.h`, body not in the repository snapshot) writes the configured
Dirichlet scalars into the boundary cells of the u buffer it is handed
(u extents `IX x ytot`, so the boundary ring is `i = 0`, `i = IX - 1`,
`j = 0`, `j = ytot - 1`); interior cells are untouched. -/
def applyUBCu (bc : BCVals) (u : Grid) : Grid := fun i j =>
  if j = ytot - 1 then bc.top
  else if i = 0 then bc.left
  else if j = 0 then bc.bottom
  else if i = IXc - 1 then bc.right
  else u i j

/-- Modelled from the spec: the v-part of `set_UBC` writes the configured
Dirichlet scalars into the boundary cells of the v buffer it is handed
(v extents `xtot x IY`, boundary ring `i = 0`, `i = xtot - 1`, `j = 0`,
`j = IY - 1`); interior cells are untouched. -/
def applyVBCv (bc : BCVals) (v : Grid) : Grid := fun i j =>
  if j = IYc - 1 then bc.top
  else if i = 0 then bc.left
  else if j = 0 then bc.bottom
  else if i = xtot - 1 then bc.right
  else v i j

/-- Clamp an index into the interior range `[1, xtot - 2]` of the
pressure grid, selecting the nearest interior neighbor of a ring cell. -/
def clampP (i : ℕ) : ℕ := min (xtot - 2) (max 1 i)

/-- Modelled from the spec: `set_PBC` (declared in `functions.h`, body not
in the repository snapshot) makes the pressure boundary ring mirror its
nearest interior neighbor (zero-gradient Neumann); interior cells are
untouched.  Pressure extents are `xtot x ytot`, ring `i = 0`,
`i = xtot - 1`, `j = 0`, `j = ytot - 1`. -/
def applyPBC (p : Grid) : Grid := fun i j =>
  if i = 0 ∨ i = xtot - 1 ∨ j = 0 ∨ j = ytot - 1 then p (clampP i) (clampP j)
  else p i j

/-- Modelled from the spec: `array_2d` returns a zero-initialized buffer,
so every freshly allocated grid holds zeros. -/
def zeroGrid : Grid := fun _ _ => 0

/-- The initial-condition loop on u's current buffer (lines 125-128):
starting from a zero-initialized buffer, `u[i][ytot-1]` and `u[i][ytot-2]`
are set to `ubc[0]` for `i = xlo` up to `i < xhi`. -/
def uInit (c : ℚ) : Grid := fun i j =>
  if xlo ≤ i ∧ i < xhi ∧ (j = ytot - 1 ∨ j = ytot - 2) then c else 0

/-- The six buffers right after allocation and the initial-condition loop,
before the first boundary pass (state between line 128 and line 130). -/
def preBCState (c : ℚ) : FieldState :=
  { u := uInit c, un := zeroGrid, v := zeroGrid, vn := zeroGrid,
    p := zeroGrid, pn := zeroGrid }

/-- The state after the initialization boundary passes (lines 130-132):
`set_UBC(u, v, ubc, vbc)` and `set_PBC(p, pbc, dx, dy)` mutate the
current buffers in place. -/
def initState (ubc vbc : BCVals) : FieldState :=
  { u := applyUBCu ubc (uInit ubc.top), un := zeroGrid,
    v := applyVBCv vbc zeroGrid, vn := zeroGrid,
    p := applyPBC zeroGrid, pn := zeroGrid }

/-- One full iteration of the main loop, as a function from the state at
the top of the loop body to the state after the pointer swap (lines
136-227): the three update loops (via `integrate`), `set_UBC` applied to
the current `u`/`v` buffers (line 170), `set_PBC` applied to the current
`p` buffer (line 181), then the three pointer swaps (lines 216-227). -/
def iterStep (P : Params) (ubc vbc : BCVals) (s : FieldState) : FieldState :=
  let t := integrate P s
  { u := t.un, un := applyUBCu ubc s.u,
    v := t.vn, vn := applyVBCv vbc s.v,
    p := t.pn, pn := applyPBC s.p }

/-- Index set of the residual loops (lines 187-188): both `i` and `j` run
from `xlo` while `< xhi` (resp. `ylo`, `< yhi`), i.e. over `[1, 126]`. -/
def resIdx : Finset ℕ := Finset.Icc xlo (xhi - 1)

/-- Accumulated squared difference between a next and a current buffer
over the residual loop's index set (lines 189-191). -/
def sumSq (cur nxt : Grid) : ℚ :=
  ∑ i ∈ resIdx, ∑ j ∈ resIdx, (nxt i j - cur i j) ^ 2

/-- Signed divergence residual `err_d` (lines 192-193): the sum over the
residual loop's index set of the local discrete divergence of the newly
computed velocity buffers, with no square root. -/
def errD (P : Params) (un vn : Grid) : ℚ :=
  ∑ i ∈ resIdx, ∑ j ∈ resIdx,
    ((un i j - un (i-1) j) * dtdx P + (vn i j - vn i (j-1)) * dtdy P)

/-- Velocity residual `err_u = sqrt(dtdxdy * err_u_accum)` (line 197). -/
noncomputable def errU (P : Params) (u un : Grid) : ℝ :=
  Real.sqrt ((dtdxdy P * sumSq u un : ℚ) : ℝ)

/-- Velocity residual `err_v = sqrt(dtdxdy * err_v_accum)` (line 198). -/
noncomputable def errV (P : Params) (v vn : Grid) : ℝ :=
  Real.sqrt ((dtdxdy P * sumSq v vn : ℚ) : ℝ)

/-- Pressure residual `err_p = sqrt(dtdxdy * err_p_accum)` (line 199). -/
noncomputable def errPr (P : Params) (p pn : Grid) : ℝ :=
  Real.sqrt ((dtdxdy P * sumSq p pn : ℚ) : ℝ)

/-- Modelled from the spec: `fmaxof` (declared in the parallel header as
"Find maximum of a set of float numbers", body not in the repository
snapshot) applied to four arguments is their maximum. -/
def fmaxof4 (a b c d : ℝ) : ℝ := max (max (max a b) c) d

/-- Total residual `err_tot = fmaxof(err_u, err_v, err_p, err_d)`
(line 201). -/
noncomputable def errTot (P : Params) (u un v vn p pn : Grid) : ℝ :=
  fmaxof4 (errU P u un) (errV P v vn) (errPr P p pn)
    ((errD P un vn : ℚ) : ℝ)

/-- Terminal outcome of the solver loop. -/
inductive Outcome where
  | converged : Outcome
  | diverged : ℕ → Outcome
  | maxIter : Outcome
deriving DecidableEq

/-- Observable trace of one run of the solver loop. -/
structure RunResult where
  /-- How the loop terminated. -/
  outcome : Outcome
  /-- Number of executions of the loop body. -/
  iterations : ℕ
  /-- Iteration indices whose residual line was written to the log. -/
  log : List ℕ
  /-- Number of pointer-swap triples performed. -/
  swaps : ℕ
  /-- Whether all six field buffers were freed on every exit path taken. -/
  freedAll : Bool
deriving DecidableEq

/-- The list `[s, s+1, ..., s+n-1]` of logged iteration indices. -/
def logRange : ℕ → ℕ → List ℕ
  | _, 0 => []
  | s, n+1 => s :: logRange (s+1) n

/-- The main do-while loop of `main` (lines 135-230) together with its
exit paths (lines 203-241), over an abstract per-iteration residual
stream: `nan k` tells whether `err_tot` of iteration `k` is NaN, and
`errs k` is its value otherwise.  The body at counter `itr` checks
`isnan(err_tot)` (free all buffers, exit failure, before the log write
and the swaps), else writes the log line, swaps the buffer pointers,
increments `itr`, and continues while `err_tot > tol && itr < itr_max`;
after the loop, `itr == itr_max` exits with failure (freeing all
buffers), otherwise the run converged.  `fuel` bounds the recursion and
is instantiated with `itrMax`, which the loop guard never exhausts. -/
def lidLoop (errs : ℕ → ℚ) (nan : ℕ → Bool) : ℕ → ℕ → RunResult
  | 0, _ => ⟨Outcome.maxIter, 0, [], 0, true⟩
  | fuel+1, itr =>
    if nan itr = true then ⟨Outcome.diverged itr, 1, [], 0, true⟩
    else if tol < errs itr ∧ itr + 1 < itrMax then
      let r := lidLoop errs nan fuel (itr+1)
      ⟨r.outcome, r.iterations + 1, itr :: r.log, r.swaps + 1, r.freedAll⟩
    else if itr + 1 = itrMax then ⟨Outcome.maxIter, 1, [itr], 1, true⟩
    else ⟨Outcome.converged, 1, [itr], 1, true⟩

/-- A full run: the loop starts at `itr = 1` (line 60). -/
def lidRun (errs : ℕ → ℚ) (nan : ℕ → Bool) : RunResult :=
  lidLoop errs nan itrMax 1

/-- Process exit code: 0 on the `return 0` path after convergence,
nonzero (`EXIT_FAILURE`) on divergence or on reaching the cap. -/
def exitCode (r : RunResult) : ℕ :=
  match r.outcome with
  | Outcome.converged => 0
  | _ => 1

lemma mem_logRange {m : ℕ} : ∀ {s n : ℕ}, m ∈ logRange s n ↔ s ≤ m ∧ m < s + n := by
  intro s n
  induction n generalizing s with
  | zero => simp [logRange]
  | succ k ih =>
    simp only [logRange, List.mem_cons, ih]
    omega

/-- If every iteration before `J` is clean (no NaN, residual above
tolerance) and iteration `J` meets the tolerance without NaN, the loop
runs the bodies at `itr, ..., J` and then exits: `maxIter` exactly when
the incremented counter hits the cap, `converged` otherwise.  All `J+1-itr`
log lines are written and all `J+1-itr` swaps performed. -/
lemma lidLoop_reach_conv (errs : ℕ → ℚ) (nan : ℕ → Bool) (J : ℕ)
    (hnan : nan J = false) (hle : errs J ≤ tol) (hmax : J + 1 ≤ itrMax) :
    ∀ fuel itr, (∀ m, itr ≤ m → m < J → nan m = false ∧ tol < errs m) →
      itr ≤ J → J < itr + fuel →
      lidLoop errs nan fuel itr =
        ⟨if J + 1 = itrMax then Outcome.maxIter else Outcome.converged,
         J + 1 - itr, logRange itr (J + 1 - itr), J + 1 - itr, true⟩ := by
  intro fuel
  induction fuel with
  | zero => intro itr _ h1 h2; omega
  | succ n ih =>
    intro itr h hitr hfuel
    rcases eq_or_lt_of_le hitr with hEq | hLt
    · subst hEq
      have hnot : ¬(tol < errs itr ∧ itr + 1 < itrMax) := by
        intro hc; exact absurd hle (not_le.mpr hc.1)
      simp only [lidLoop, hnan, Bool.false_eq_true, if_false, hnot,
        Nat.sub_self, Nat.add_sub_cancel_left]
      by_cases hJ : itr + 1 = itrMax
      · simp [hJ, logRange]
      · simp [hJ, logRange]
    · have hm := h itr le_rfl hLt
      have hcond : tol < errs itr ∧ itr + 1 < itrMax := ⟨hm.2, by omega⟩
      have hrec := ih (itr + 1) (fun m hm1 hm2 => h m (by omega) hm2)
        (by omega) (by omega)
      simp only [lidLoop, hm.1, Bool.false_eq_true, if_false, hcond,
        and_self, if_true, hrec]
      have h1 : J + 1 - itr = (J - itr) + 1 := by omega
      have h2 : J + 1 - (itr + 1) = J - itr := by omega
      simp only [h1, h2, logRange, RunResult.mk.injEq]

/-- If every iteration before `J` is clean and iteration `J` sees a NaN
residual, the loop exits `diverged J`: only the `J - itr` earlier log
lines are written, only the `J - itr` earlier swaps are performed, and
all buffers are freed. -/
lemma lidLoop_reach_nan (errs : ℕ → ℚ) (nan : ℕ → Bool) (J : ℕ)
    (hnan : nan J = true) (hmax : J < itrMax) :
    ∀ fuel itr, (∀ m, itr ≤ m → m < J → nan m = false ∧ tol < errs m) →
      itr ≤ J → J < itr + fuel →
      lidLoop errs nan fuel itr =
        ⟨Outcome.diverged J, J + 1 - itr, logRange itr (J - itr),
         J - itr, true⟩ := by
  intro fuel
  induction fuel with
  | zero => intro itr _ h1 h2; omega
  | succ n ih =>
    intro itr h hitr hfuel
    rcases eq_or_lt_of_le hitr with hEq | hLt
    · subst hEq
      simp [lidLoop, hnan, logRange]
    · have hm := h itr le_rfl hLt
      have hcond : tol < errs itr ∧ itr + 1 < itrMax := ⟨hm.2, by omega⟩
      have hrec := ih (itr + 1) (fun m hm1 hm2 => h m (by omega) hm2)
        (by omega) (by omega)
      simp only [lidLoop, hm.1, Bool.false_eq_true, if_false, hcond,
        and_self, if_true, hrec]
      have h1 : J + 1 - itr = (J + 1 - (itr + 1)) + 1 := by omega
      have h2 : J - itr = (J - (itr + 1)) + 1 := by omega
      simp only [h1, h2, logRange, RunResult.mk.injEq]

/-- The loop body cannot run more than `itrMax - itr` times. -/
lemma lidLoop_iterations_le (errs : ℕ → ℚ) (nan : ℕ → Bool) :
    ∀ fuel itr, itr < itrMax →
      (lidLoop errs nan fuel itr).iterations ≤ itrMax - itr := by
  intro fuel
  induction fuel with
  | zero => intro itr h; simp [lidLoop]
  | succ n ih =>
    intro itr h
    cases hn : nan itr with
    | true =>
      simp only [lidLoop, hn, if_true]
      omega
    | false =>
      by_cases hc : tol < errs itr ∧ itr + 1 < itrMax
      · have hih := ih (itr + 1) hc.2
        simp only [lidLoop, hn, Bool.false_eq_true, if_false, hc, and_self,
          if_true]
        omega
      · simp only [lidLoop, hn, Bool.false_eq_true, if_false, hc]
        split
        · show 1 ≤ itrMax - itr
          omega
        · show 1 ≤ itrMax - itr
          omega

/-- C1 (amended): when the first iteration whose residual is at or below
the tolerance is `J` (no NaN and residual above tolerance before it, no
NaN at `J`), the run exits with code 0 exactly when `J + 1` is still
strictly below the cap, i.e. `J ≤ 999998`; if the tolerance is first met
at `J = 999999` the run takes the max-iterations failure path even though
the tolerance was met, and every failure path frees all buffers. -/
theorem exit_success_iff_tolerance_strictly_before_cap
    (errs : ℕ → ℚ) (nan : ℕ → Bool) (J : ℕ)
    (h1 : ∀ m, 1 ≤ m → m < J → nan m = false ∧ tol < errs m)
    (h2 : nan J = false) (h3 : errs J ≤ tol) (h4 : 1 ≤ J)
    (h5 : J + 1 ≤ itrMax) :
    ((lidRun errs nan).outcome =
        if J + 1 = itrMax then Outcome.maxIter else Outcome.converged)
      ∧ (exitCode (lidRun errs nan) = 0 ↔ J + 1 < itrMax)
      ∧ (lidRun errs nan).freedAll = true := by
  have hr := lidLoop_reach_conv errs nan J h2 h3 h5 itrMax 1
    (fun m hm hm' => h1 m hm hm') h4 (by omega)
  rw [lidRun, hr]
  refine ⟨rfl, ?_, rfl⟩
  by_cases hJ : J + 1 = itrMax
  · simp only [exitCode, hJ, if_true]
    constructor
    · intro h0
      exact absurd h0 one_ne_zero
    · intro h0
      omega
  · simp only [exitCode, hJ, if_false]
    constructor
    · intro _
      omega
    · intro _
      trivial

/-- Witness for the amended C1 theorem: a run whose very first residual
is 0 converges with exit code 0. -/
theorem exit_success_iff_tolerance_strictly_before_cap_witness :
    exitCode (lidRun (fun _ => (0 : ℚ)) (fun _ => false)) = 0
      ∧ (0 : ℚ) ≤ tol ∧ (1 : ℕ) + 1 ≤ itrMax :=
  ⟨(exit_success_iff_tolerance_strictly_before_cap (fun _ => (0 : ℚ))
      (fun _ => false) 1
      (fun m hm hm' => absurd (lt_of_le_of_lt hm hm') (lt_irrefl 1))
      rfl (by norm_num [tol]) le_rfl (by norm_num [itrMax])).2.1.mpr
      (by norm_num [itrMax]),
   by norm_num [tol], by norm_num [itrMax]⟩

/-- Counterexample to C1 as stated: with residuals that stay above the
tolerance until they hit 0 at iteration 999999 (and never NaN), the
tolerance is met at an executed iteration — before the counter reaches
the cap of 1000000 — yet the exit code is nonzero, because the post-loop
`itr == itr_max` test fires after the final increment. -/
theorem exit_success_claim_cex :
    ¬ ((exitCode (lidRun (fun k => if k < 999999 then (1 : ℚ) else 0)
          (fun _ => false)) = 0) ↔
        (∃ k, 1 ≤ k ∧ k ≤ 999999 ∧
          (if k < 999999 then (1 : ℚ) else 0) ≤ tol)) := by
  intro h
  have hr := lidLoop_reach_conv (fun k => if k < 999999 then (1 : ℚ) else 0)
    (fun _ => false) 999999 rfl
    (by norm_num [tol]) (by norm_num [itrMax]) itrMax 1
    (fun m hm hm' => ⟨rfl, by simp only [if_pos hm']; norm_num [tol]⟩)
    (by norm_num) (by norm_num [itrMax])
  have h0 := h.mpr ⟨999999, by norm_num, le_rfl, by norm_num [tol]⟩
  rw [lidRun] at h0
  rw [hr] at h0
  norm_num [exitCode, itrMax] at h0

/-- C9: for every residual stream the loop terminates after at most
999999 executions of its body: the counter starts at 1, each body pass
increments it by exactly 1, and the loop continues only while the
incremented counter is strictly below the cap 1000000. -/
theorem loop_body_executes_at_most_999999 (errs : ℕ → ℚ) (nan : ℕ → Bool) :
    (lidRun errs nan).iterations ≤ 999999 := by
  have h := lidLoop_iterations_le errs nan itrMax 1 (by norm_num [itrMax])
  simpa [lidRun, itrMax] using h

/-- C10: if the residual of iteration `J` is NaN (and every earlier
iteration was clean), the run exits as diverged at `J` with all buffers
freed, iteration `J`'s residual line is never written to the log, and
only the `J - 1` earlier pointer swaps were performed, so the diverging
iteration leaves no log record and no partial swap. -/
theorem nan_exit_frees_before_log_and_swap
    (errs : ℕ → ℚ) (nan : ℕ → Bool) (J : ℕ)
    (h1 : ∀ m, 1 ≤ m → m < J → nan m = false ∧ tol < errs m)
    (h2 : nan J = true) (h4 : 1 ≤ J) (h5 : J < itrMax) :
    (lidRun errs nan).outcome = Outcome.diverged J
      ∧ (lidRun errs nan).freedAll = true
      ∧ J ∉ (lidRun errs nan).log
      ∧ (lidRun errs nan).swaps = J - 1
      ∧ (lidRun errs nan).iterations = J := by
  have hr := lidLoop_reach_nan errs nan J h2 h5 itrMax 1
    (fun m hm hm' => h1 m hm hm') h4 (by omega)
  rw [lidRun, hr]
  refine ⟨rfl, rfl, ?_, rfl, ?_⟩
  · show J ∉ logRange 1 (J - 1)
    simp only [mem_logRange, not_and, not_lt]
    intro _
    omega
  · show J + 1 - 1 = J
    omega

/-- Witness for the C10 theorem: a NaN residual in the very first
iteration exits as diverged at iteration 1 with an empty log and no
swap performed. -/
theorem nan_exit_frees_before_log_and_swap_witness :
    (lidRun (fun _ => (0 : ℚ)) (fun _ => true)).outcome = Outcome.diverged 1
      ∧ 1 ∉ (lidRun (fun _ => (0 : ℚ)) (fun _ => true)).log
      ∧ (lidRun (fun _ => (0 : ℚ)) (fun _ => true)).swaps = 0 :=
  have h := nan_exit_frees_before_log_and_swap (fun _ => (0 : ℚ))
    (fun _ => true) 1
    (fun m hm hm' => absurd (lt_of_le_of_lt hm hm') (lt_irrefl 1))
    rfl le_rfl (by norm_num [itrMax])
  ⟨h.1, h.2.2.1, h.2.2.2.1⟩

/-- Concrete parameter set used by witnesses. -/
def Pone : Params := ⟨1, 1, 1, 1, 1⟩

/-- All-zero field state used by witnesses. -/
def zeroState : FieldState :=
  ⟨zeroGrid, zeroGrid, zeroGrid, zeroGrid, zeroGrid, zeroGrid⟩

/-- C2: in every iteration, for every point of the pressure loop's range,
the new pressure equals the old pressure minus `c2` times the discrete
divergence of the velocity field newly computed in that same iteration —
the buffers that become the current `u`/`v` after the swap — never the
pre-update velocities. -/
theorem pressure_update_uses_new_velocities
    (P : Params) (ubc vbc : BCVals) (s : FieldState) (i j : ℕ)
    (h : pInRange i j) :
    (iterStep P ubc vbc s).p i j =
      s.p i j - P.c2 * (((iterStep P ubc vbc s).u i j
            - (iterStep P ubc vbc s).u (i-1) j) * dtdx P
          + ((iterStep P ubc vbc s).v i j
            - (iterStep P ubc vbc s).v i (j-1)) * dtdy P) := by
  simp only [iterStep, integrate, pNext, if_pos h, pFormula]

/-- Witness for the C2 theorem at the interior point (1,1) of an all-zero
state with unit parameters. -/
theorem pressure_update_uses_new_velocities_witness :
    pInRange 1 1 ∧
      (iterStep Pone ubcDefault vbcDefault zeroState).p 1 1 = 0 :=
  ⟨by decide,
   by
    rw [pressure_update_uses_new_velocities Pone ubcDefault vbcDefault
      zeroState 1 1 (by decide)]
    norm_num [iterStep, integrate, uNext, vNext, uFormula, vFormula,
      uInRange, vInRange, xlo, xhi, xtot, ylo, yhi, ytot, IXc, IYc,
      zeroState, zeroGrid, Pone, dtdx, dtdy, dtdxx, dtdyy]⟩

/-- C4: on the u-loop's index range the u-momentum update is exactly
`old u` minus `0.25*(dt/dx)` times the difference of squared sums of
staggered x-neighbors, minus `0.25*(dt/dy)` times the staggered `u*v`
cross term, minus `(dt/dx)` times the pressure difference, plus
`nu*(dt/dx^2, dt/dy^2)`-scaled 5-point Laplacian; and the v-momentum
update is the symmetric y-direction counterpart. -/
theorem momentum_update_formulas
    (P : Params) (u v p un vn : Grid) (i j : ℕ)
    (hu : uInRange i j) (hv : vInRange i j) :
    (uNext P u v p un i j =
      u i j
        - 0.25 * (P.dt / P.dx) * ((u (i+1) j + u i j) ^ 2
            - (u i j + u (i-1) j) ^ 2)
        - 0.25 * (P.dt / P.dy) * ((u i (j+1) + u i j) * (v (i+1) j + v i j)
            - (u i j + u i (j-1)) * (v (i+1) (j-1) + v i (j-1)))
        - (P.dt / P.dx) * (p (i+1) j - p i j)
        + P.nu * ((P.dt / (P.dx * P.dx))
              * (u (i+1) j - 2 * u i j + u (i-1) j)
            + (P.dt / (P.dy * P.dy))
              * (u i (j+1) - 2 * u i j + u i (j-1))))
    ∧
    (vNext P u v p vn i j =
      v i j
        - 0.25 * (P.dt / P.dx) * ((u i (j+1) + u i j) * (v (i+1) j + v i j)
            - (u (i-1) (j+1) + u (i-1) j) * (v i j + v (i-1) j))
        - 0.25 * (P.dt / P.dy) * ((v i (j+1) + v i j) ^ 2
            - (v i j + v i (j-1)) ^ 2)
        - (P.dt / P.dy) * (p i (j+1) - p i j)
        + P.nu * ((P.dt / (P.dx * P.dx))
              * (v (i+1) j - 2 * v i j + v (i-1) j)
            + (P.dt / (P.dy * P.dy))
              * (v i (j+1) - 2 * v i j + v i (j-1)))) :=
  ⟨by simp only [uNext, if_pos hu, uFormula, dtdx, dtdy, dtdxx, dtdyy],
   by simp only [vNext, if_pos hv, vFormula, dtdx, dtdy, dtdxx, dtdyy]⟩

/-- Witness for the C4 theorem at the interior point (1,1) of zero grids
with unit parameters. -/
theorem momentum_update_formulas_witness :
    uInRange 1 1 ∧ vInRange 1 1 ∧
      uNext Pone zeroGrid zeroGrid zeroGrid zeroGrid 1 1 = 0 ∧
      vNext Pone zeroGrid zeroGrid zeroGrid zeroGrid 1 1 = 0 := by
  have h := momentum_update_formulas Pone zeroGrid zeroGrid zeroGrid
    zeroGrid zeroGrid 1 1 (by decide) (by decide)
  refine ⟨by decide, by decide, ?_, ?_⟩
  · rw [h.1]
    norm_num [zeroGrid, Pone]
  · rw [h.2]
    norm_num [zeroGrid, Pone]

/-- C6: the step integrator leaves the three current buffers identical,
touches the next buffers only on the update loops' index ranges, and in
particular leaves every one-cell boundary-ring cell of `un`, `vn`, `pn`
unchanged; the current/next roles change only at the later swap. -/
theorem integrator_writes_only_interior (P : Params) (s : FieldState)
    (i j : ℕ) :
    ((integrate P s).u = s.u)
    ∧ ((integrate P s).v = s.v)
    ∧ ((integrate P s).p = s.p)
    ∧ (¬ uInRange i j → (integrate P s).un i j = s.un i j)
    ∧ (¬ vInRange i j → (integrate P s).vn i j = s.vn i j)
    ∧ (¬ pInRange i j → (integrate P s).pn i j = s.pn i j)
    ∧ (i = 0 ∨ i = IXc - 1 ∨ j = 0 ∨ j = ytot - 1 →
        (integrate P s).un i j = s.un i j)
    ∧ (i = 0 ∨ i = xtot - 1 ∨ j = 0 ∨ j = IYc - 1 →
        (integrate P s).vn i j = s.vn i j)
    ∧ (i = 0 ∨ i = xtot - 1 ∨ j = 0 ∨ j = ytot - 1 →
        (integrate P s).pn i j = s.pn i j) := by
  refine ⟨rfl, rfl, rfl, ?_, ?_, ?_, ?_, ?_, ?_⟩
  · intro h
    simp only [integrate, uNext, if_neg h]
  · intro h
    simp only [integrate, vNext, if_neg h]
  · intro h
    simp only [integrate, pNext, if_neg h]
  · intro h
    have hni : ¬ uInRange i j := by
      simp only [uInRange, xlo, xhi, ylo, ytot, IXc, IYc] at *
      omega
    simp only [integrate, uNext, if_neg hni]
  · intro h
    have hni : ¬ vInRange i j := by
      simp only [vInRange, xlo, xtot, ylo, yhi, IXc, IYc] at *
      omega
    simp only [integrate, vNext, if_neg hni]
  · intro h
    have hni : ¬ pInRange i j := by
      simp only [pInRange, xlo, xtot, ylo, ytot, IXc, IYc] at *
      omega
    simp only [integrate, pNext, if_neg hni]

/-- Witness for the C6 theorem: the boundary-ring cell (0,5) of each
next buffer of an all-zero state is untouched by the integrator. -/
theorem integrator_writes_only_interior_witness :
    (integrate Pone zeroState).un 0 5 = zeroState.un 0 5 ∧
      (integrate Pone zeroState).pn 0 5 = zeroState.pn 0 5 := by
  have h := integrator_writes_only_interior Pone zeroState 0 5
  exact ⟨h.2.2.2.1 (by decide), h.2.2.2.2.2.1 (by decide)⟩

/-- C3: the per-field residuals are
`sqrt(dx*dy*dt * sum of squared (next - current))` over the residual
loop's interior index set, the divergence residual is the plain signed
sum of the local discrete divergences of the new velocity field with no
square root, and the total residual is the four-way maximum. -/
theorem residual_norm_formulas (P : Params) (u un v vn p pn : Grid) :
    (errU P u un =
      Real.sqrt ((P.dx * P.dy * P.dt
        * ∑ i ∈ resIdx, ∑ j ∈ resIdx, (un i j - u i j) ^ 2 : ℚ) : ℝ))
    ∧ (errV P v vn =
      Real.sqrt ((P.dx * P.dy * P.dt
        * ∑ i ∈ resIdx, ∑ j ∈ resIdx, (vn i j - v i j) ^ 2 : ℚ) : ℝ))
    ∧ (errPr P p pn =
      Real.sqrt ((P.dx * P.dy * P.dt
        * ∑ i ∈ resIdx, ∑ j ∈ resIdx, (pn i j - p i j) ^ 2 : ℚ) : ℝ))
    ∧ (errD P un vn = ∑ i ∈ resIdx, ∑ j ∈ resIdx,
        ((un i j - un (i-1) j) * (P.dt / P.dx)
          + (vn i j - vn i (j-1)) * (P.dt / P.dy)))
    ∧ (errTot P u un v vn p pn =
        max (max (max (errU P u un) (errV P v vn)) (errPr P p pn))
          ((errD P un vn : ℚ) : ℝ)) := by
  refine ⟨?_, ?_, ?_, ?_, rfl⟩
  · simp only [errU, sumSq, dtdxdy]
    congr 2
    ring
  · simp only [errV, sumSq, dtdxdy]
    congr 2
    ring
  · simp only [errPr, sumSq, dtdxdy]
    congr 2
    ring
  · simp only [errD, dtdx, dtdy]

/-- C8 (amended): whenever the total residual is at or below the
tolerance — the converged exit condition — the divergence residual is
bounded by the tolerance only as a signed value, being one of the four
arguments of the maximum. -/
theorem converged_bounds_errD_signed_only (P : Params) (u un v vn p pn : Grid)
    (h : errTot P u un v vn p pn ≤ ((tol : ℚ) : ℝ)) :
    ((errD P un vn : ℚ) : ℝ) ≤ ((tol : ℚ) : ℝ) := by
  have h1 : ((errD P un vn : ℚ) : ℝ) ≤ errTot P u un v vn p pn :=
    le_max_right _ _
  exact h1.trans h

/-- Witness for the amended C8 theorem: on all-zero fields the total
residual is 0, at or below the tolerance, and so is `err_d`. -/
theorem converged_bounds_errD_signed_only_witness :
    ((errD Pone zeroGrid zeroGrid : ℚ) : ℝ) ≤ ((tol : ℚ) : ℝ)
      ∧ errTot Pone zeroGrid zeroGrid zeroGrid zeroGrid zeroGrid zeroGrid
          ≤ ((tol : ℚ) : ℝ) := by
  have hT : errTot Pone zeroGrid zeroGrid zeroGrid zeroGrid zeroGrid
      zeroGrid = 0 := by
    simp [errTot, fmaxof4, errU, errV, errPr, errD, sumSq, dtdxdy,
      zeroGrid]
  constructor
  · exact converged_bounds_errD_signed_only Pone zeroGrid zeroGrid
      zeroGrid zeroGrid zeroGrid zeroGrid (by rw [hT]; norm_num [tol])
  · rw [hT]
    norm_num [tol]

/-- A velocity field with uniform negative discrete divergence, used to
refute the magnitude reading of C8. -/
def negIGrid : Grid := fun i _ => -(i : ℚ)

lemma errD_negIGrid : errD Pone negIGrid zeroGrid = -15876 := by
  unfold errD
  have hterm : ∀ i ∈ resIdx, (∑ j ∈ resIdx,
      ((negIGrid i j - negIGrid (i-1) j) * dtdx Pone
        + (zeroGrid i j - zeroGrid i (j-1)) * dtdy Pone)) = -126 := by
    intro i hi
    have hi1 : 1 ≤ i := (Finset.mem_Icc.mp hi).1
    have hval : ∀ j ∈ resIdx,
        ((negIGrid i j - negIGrid (i-1) j) * dtdx Pone
          + (zeroGrid i j - zeroGrid i (j-1)) * dtdy Pone) = -1 := by
      intro j _
      simp only [negIGrid, zeroGrid, dtdx, dtdy, Pone]
      rw [Nat.cast_sub hi1]
      push_cast
      ring
    rw [Finset.sum_congr rfl hval]
    simp [resIdx, xlo, xhi, IXc]
  rw [Finset.sum_congr rfl hterm]
  simp [resIdx, xlo, xhi, IXc]
  norm_num

/-- Counterexample to C8 as stated: a state whose velocity, v- and
pressure-residuals are all 0 (fields unchanged) but whose new velocity
field has large uniform negative divergence gives `err_tot = 0`, so the
monitor converges (as the solver loop does on a zero residual stream),
yet `|err_d| = 15876` is far above the tolerance: the maximum only
bounds `err_d` from above as a signed value. -/
theorem converged_errD_magnitude_cex :
    errTot Pone negIGrid negIGrid zeroGrid zeroGrid zeroGrid zeroGrid
        ≤ ((tol : ℚ) : ℝ)
      ∧ (lidRun (fun _ => (0 : ℚ)) (fun _ => false)).outcome
          = Outcome.converged
      ∧ ¬ (|errD Pone negIGrid zeroGrid| ≤ tol) := by
  refine ⟨?_, ?_, ?_⟩
  · have hd := errD_negIGrid
    have hz : errTot Pone negIGrid negIGrid zeroGrid zeroGrid zeroGrid
        zeroGrid = max 0 ((-15876 : ℚ) : ℝ) := by
      simp [errTot, fmaxof4, errU, errV, errPr, sumSq, dtdxdy, hd]
    rw [hz]
    have : ((-15876 : ℚ) : ℝ) ≤ 0 := by norm_num
    rw [max_eq_left this]
    norm_num [tol]
  · have hr := lidLoop_reach_conv (fun _ => (0 : ℚ)) (fun _ => false) 1
      rfl (by norm_num [tol]) (by norm_num [itrMax]) itrMax 1
      (fun m hm hm' => absurd (lt_of_le_of_lt hm hm') (lt_irrefl 1))
      le_rfl (by norm_num [itrMax])
    rw [lidRun, hr]
    norm_num [itrMax]
  · rw [errD_negIGrid]
    norm_num [tol]

/-- C5 (amended): a velocity boundary pass runs once at initialization
and after every velocity update, and a pressure pass after every
pressure update, but each pass is applied to the current (pre-update)
buffers — which the end-of-iteration swap then turns into the next
buffers — not to the just-updated fields; after every pass the boundary
cells of the buffer the pass targeted hold the configured Dirichlet
values, and the pressure ring of its target mirrors the nearest
interior neighbor. -/
theorem boundary_passes_target_current_buffers
    (P : Params) (ubc vbc : BCVals) (s : FieldState) (q : Grid) (i j : ℕ) :
    ((iterStep P ubc vbc s).un = applyUBCu ubc s.u)
    ∧ ((iterStep P ubc vbc s).vn = applyVBCv vbc s.v)
    ∧ ((iterStep P ubc vbc s).pn = applyPBC s.p)
    ∧ ((initState ubc vbc).u = applyUBCu ubc (uInit ubc.top))
    ∧ ((initState ubc vbc).p = applyPBC zeroGrid)
    ∧ (j = ytot - 1 → applyUBCu ubc s.u i j = ubc.top)
    ∧ (i = 0 → j ≠ ytot - 1 → applyUBCu ubc s.u i j = ubc.left)
    ∧ (j = 0 → i ≠ 0 → j ≠ ytot - 1 → applyUBCu ubc s.u i j = ubc.bottom)
    ∧ (i = IXc - 1 → i ≠ 0 → j ≠ 0 → j ≠ ytot - 1 →
        applyUBCu ubc s.u i j = ubc.right)
    ∧ (j = IYc - 1 → applyVBCv vbc s.v i j = vbc.top)
    ∧ (i = 0 → j ≠ IYc - 1 → applyVBCv vbc s.v i j = vbc.left)
    ∧ (i = 0 ∨ i = xtot - 1 ∨ j = 0 ∨ j = ytot - 1 →
        applyPBC q i j = q (clampP i) (clampP j)) := by
  refine ⟨rfl, rfl, rfl, rfl, rfl, ?_, ?_, ?_, ?_, ?_, ?_, ?_⟩
  · intro h1
    simp [applyUBCu, h1]
  · intro h1 h2
    simp [applyUBCu, h1, h2]
  · intro h1 h2 h3
    simp [applyUBCu, h1, h2, h3, ytot, IYc]
  · intro h1 h2 h3 h4
    have h4' : j ≠ 128 := by simpa [ytot, IYc] using h4
    simp [applyUBCu, h1, h2, h3, h4', ytot, IYc, IXc]
  · intro h1
    simp [applyVBCv, h1]
  · intro h1 h2
    simp [applyVBCv, h1, h2]
  · intro h1
    simp [applyPBC, h1]

/-- Witness for the amended C5 theorem: after the pass the top-row cell
(5, ytot-1) of its target holds the lid value, and the buffer the
iteration's velocity pass wrote is the pre-update current buffer. -/
theorem boundary_passes_target_current_buffers_witness :
    applyUBCu ubcDefault zeroState.u 5 (ytot - 1) = ubcDefault.top
      ∧ (iterStep Pone ubcDefault vbcDefault zeroState).un
          = applyUBCu ubcDefault zeroState.u := by
  have h := boundary_passes_target_current_buffers Pone ubcDefault
    vbcDefault zeroState zeroGrid 5 (ytot - 1)
  exact ⟨h.2.2.2.2.2.1 rfl, h.1⟩

/-- Counterexample to C5 as stated: starting from the initialized state,
one full iteration produces a current u field — the one the next
iteration's stencil reads — whose top boundary cell (1, ytot-1) is 0,
not the configured lid value 1: the velocity pass ran on the pre-update
buffers, so the just-updated field carried into the next iteration never
received it. -/
theorem boundary_pass_claim_cex :
    (iterStep Pone ubcDefault vbcDefault
        (initState ubcDefault vbcDefault)).u 1 (ytot - 1) = 0
      ∧ ubcDefault.top = 1 ∧ (0 : ℚ) ≠ 1 := by
  refine ⟨?_, rfl, by norm_num⟩
  show uNext Pone (initState ubcDefault vbcDefault).u
      (initState ubcDefault vbcDefault).v
      (initState ubcDefault vbcDefault).p
      (initState ubcDefault vbcDefault).un 1 (ytot - 1) = 0
  have hni : ¬ uInRange 1 (ytot - 1) := by
    simp only [uInRange, xlo, xhi, ylo, ytot, IXc, IYc]
    omega
  simp only [uNext, if_neg hni, initState, zeroGrid]

/-- C7 (amended): after allocation and the initial-condition loop but
before the first boundary pass, the seeded cells are exactly rows
`ytot-1` and `ytot-2` of u's current buffer at the interior columns
`xlo <= i < xhi`, which hold the lid velocity; columns 0 and `xhi` of
those rows and every other cell of every buffer are still zero. -/
theorem init_seeds_top_rows_interior_columns (c : ℚ) (i j : ℕ) :
    (xlo ≤ i → i < xhi → j = ytot - 1 ∨ j = ytot - 2 → uInit c i j = c)
    ∧ (i = 0 → uInit c i j = 0)
    ∧ (xhi ≤ i → uInit c i j = 0)
    ∧ (j ≠ ytot - 1 → j ≠ ytot - 2 → uInit c i j = 0)
    ∧ ((preBCState c).u = uInit c)
    ∧ ((preBCState c).un = zeroGrid)
    ∧ ((preBCState c).v = zeroGrid)
    ∧ ((preBCState c).vn = zeroGrid)
    ∧ ((preBCState c).p = zeroGrid)
    ∧ ((preBCState c).pn = zeroGrid) := by
  refine ⟨?_, ?_, ?_, ?_, rfl, rfl, rfl, rfl, rfl, rfl⟩
  · intro h1 h2 h3
    simp only [uInit]
    rw [if_pos ⟨h1, h2, h3⟩]
  · intro h1
    have hni : ¬ (xlo ≤ i ∧ i < xhi ∧ (j = ytot - 1 ∨ j = ytot - 2)) := by
      simp only [xlo, xhi, ytot, IXc, IYc]
      omega
    simp only [uInit]
    rw [if_neg hni]
  · intro h1
    have hni : ¬ (xlo ≤ i ∧ i < xhi ∧ (j = ytot - 1 ∨ j = ytot - 2)) := by
      intro hc
      exact absurd hc.2.1 (not_lt.mpr h1)
    simp only [uInit]
    rw [if_neg hni]
  · intro h1 h2
    have hni : ¬ (xlo ≤ i ∧ i < xhi ∧ (j = ytot - 1 ∨ j = ytot - 2)) := by
      intro hc
      rcases hc.2.2 with hc' | hc'
      · exact h1 hc'
      · exact h2 hc'
    simp only [uInit]
    rw [if_neg hni]

/-- Witness for the amended C7 theorem: column 1 of the top row is
seeded with the lid value while column 0 of the same row stays zero. -/
theorem init_seeds_top_rows_interior_columns_witness :
    uInit 5 1 (ytot - 1) = 5 ∧ uInit 5 0 (ytot - 1) = 0 :=
  ⟨(init_seeds_top_rows_interior_columns 5 1 (ytot - 1)).1 (by decide)
      (by decide) (Or.inl rfl),
   (init_seeds_top_rows_interior_columns 5 0 (ytot - 1)).2.1 rfl⟩

/-- Counterexample to C7 as stated: the top two rows do not hold the lid
velocity for every column — the initial-condition loop runs `i` from
`xlo` to `xhi - 1`, so column 0 of row `ytot - 1` stays 0 while
`ubc[0] = 1`. -/
theorem init_top_rows_not_every_column_cex :
    ¬ (∀ i, i < IXc → uInit ubcDefault.top i (ytot - 1) = ubcDefault.top) := by
  intro h
  have h0 := h 0 (by norm_num [IXc])
  rw [(init_seeds_top_rows_interior_columns ubcDefault.top 0
    (ytot - 1)).2.1 rfl] at h0
  norm_num [ubcDefault] at h0

end LidCavity
